import Mathlib

/-!
Shallow embedding of the `cros_async` reactor (src/cros_async/src/uring_executor.rs,
src/cros_async/src/lib.rs) and of the qcow L2 table cache (src/qcow/src/l2_cache.rs).

External collaborators (the io_uring kernel context, `libc::dup`, `sys_util`
watching events) are modelled by passing their outcomes as explicit parameters:
each call the Rust code makes into the kernel appears here as an argument holding
that call's result.  Requests issued to the kernel context are recorded in an
explicit log (`ctx_log`) so that theorems can speak about which interests were
submitted or removed.  Wakers and futures carry no behaviour of their own in the
Rust code beyond being stored and invoked, so they are modelled by opaque
natural-number identifiers; invoking a waker is recorded in a returned list.
-/

namespace CrosAsync

/-- Model of sys_util WatchingEvents: a set of readiness kinds. -/
structure WatchingEvents where
  read : Bool
  write : Bool
deriving DecidableEq, Repr

/-- WatchingEvents::empty() -/
def WatchingEvents.empty : WatchingEvents := ⟨false, false⟩

/-- WatchingEvents::set_read() -/
def WatchingEvents.set_read (e : WatchingEvents) : WatchingEvents := { e with read := true }

/-- WatchingEvents.set_write() -/
def WatchingEvents.set_write (e : WatchingEvents) : WatchingEvents := { e with write := true }

/-- Errors of external collaborators (io_uring::Error, sys_util::Error) are opaque;
we model them by a numeric code. -/
abbrev ExtError := Nat

/-- The uring executor error enum from src/cros_async/src/uring_executor.rs. -/
inductive UringError where
  | AttemptedDuplicateExecutor
  | DuplicatingFd (e : ExtError)
  | InvalidContext
  | CreatingContext (e : ExtError)
  | RemovingWaker (e : ExtError)
  | SubmittingWaker (e : ExtError)
  | URingContextError (e : ExtError)
  | URingEnter (e : ExtError)
deriving DecidableEq, Repr

/-- Modelled from the spec: `WakerToken` lives in the crate's executor.rs, which is
not among the given sources; the spec describes it as an opaque integer handle and
uring_executor.rs constructs it as `WakerToken(next_token)`. -/
structure WakerToken where
  val : Nat
deriving DecidableEq, Repr

/-- A request issued to the kernel uring context (URingContext::add_poll_fd /
URingContext::remove_poll_fd), recorded with its arguments. -/
inductive KernelOp where
  | addPoll (fd : Nat) (events : WatchingEvents) (token : Nat)
  | removePoll (fd : Nat) (events : WatchingEvents) (token : Nat)
deriving DecidableEq, Repr

/-- A pending-interest record stored in the token map: the duplicated descriptor
(an owned File, modelled by its raw fd), the watched events, and the waker id. -/
structure Entry where
  fd : Nat
  events : WatchingEvents
  waker : Nat
deriving DecidableEq, Repr

/-- BTreeMap lookup, modelled on an association list with unique keys. -/
def alLookup (k : Nat) : List (Nat × Entry) → Option Entry
  | [] => none
  | (k', v) :: rest => if k' = k then some v else alLookup k rest

/-- BTreeMap removal of a key. -/
def alRemove (k : Nat) (m : List (Nat × Entry)) : List (Nat × Entry) :=
  m.filter fun p => p.1 ≠ k

/-- BTreeMap insertion of a key (replacing any previous binding). -/
def alInsert (k : Nat) (v : Entry) (m : List (Nat × Entry)) : List (Nat × Entry) :=
  (k, v) :: alRemove k m

/-- RingWakerState from src/cros_async/src/uring_executor.rs: the kernel context
(modelled by the log of requests issued to it), the token map, the next-token
counter and the queue of newly submitted futures (opaque ids). -/
structure RingWakerState where
  ctx_log : List KernelOp
  token_map : List (Nat × Entry)
  next_token : Nat
  new_futures : List Nat
deriving DecidableEq, Repr

/-- RingWakerState::new: creating the kernel context may fail (`ctxRes = some e`);
on success all bookkeeping starts empty with next_token = 0. -/
def RingWakerState.new (ctxRes : Option ExtError) : Except UringError RingWakerState :=
  match ctxRes with
  | some e => .error (.CreatingContext e)
  | none => .ok ⟨[], [], 0, []⟩

/-- dup_fd from uring_executor.rs: `libc::dup` either yields a fresh descriptor or
fails with an errno; the outcome is passed in as `dupRes`. -/
def dup_fd (dupRes : Except ExtError Nat) : Except UringError Nat :=
  match dupRes with
  | .error e => .error (.DuplicatingFd e)
  | .ok fd => .ok fd

/-- RingWakerState::add_fd.  `dupRes` is the outcome of `libc::dup(fd)` and
`submitRes` the outcome of `ctx.add_poll_fd` (`none` = success).  The duplicated
descriptor, not the caller's original, is submitted and stored; the record is
keyed by the current `next_token`, which is then incremented.  On any failure the
token map and counter are unchanged. -/
def RingWakerState.add_fd (s : RingWakerState) (dupRes : Except ExtError Nat)
    (submitRes : Option ExtError) (waker : Nat) (events : WatchingEvents) :
    RingWakerState × Except UringError WakerToken :=
  match dup_fd dupRes with
  | .error e => (s, .error e)
  | .ok duped_fd =>
    let s1 := { s with ctx_log := s.ctx_log ++ [.addPoll duped_fd events s.next_token] }
    match submitRes with
    | some e => (s1, .error (.SubmittingWaker e))
    | none =>
      let next_token := s.next_token
      ({ s1 with
          token_map := alInsert next_token ⟨duped_fd, events, waker⟩ s.token_map,
          next_token := next_token + 1 },
        .ok ⟨next_token⟩)

/-- RingWakerState::cancel_waker.  `removeRes` is the outcome of
`ctx.remove_poll_fd` (`none` = success).  If the token is mapped the record is
removed and kernel-side removal requested; the call fails only if that kernel
request fails.  An unmapped token is a no-op success. -/
def RingWakerState.cancel_waker (s : RingWakerState) (removeRes : Option ExtError)
    (token : WakerToken) : RingWakerState × Except UringError Unit :=
  match alLookup token.val s.token_map with
  | some entry =>
    let s1 := { s with
        token_map := alRemove token.val s.token_map,
        ctx_log := s.ctx_log ++ [.removePoll entry.fd entry.events token.val] }
    match removeRes with
    | some e => (s1, .error (.RemovingWaker e))
    | none => (s1, .ok ())
  | none => (s, .ok ())

/-- One step of the completion-draining loop in wait_wake_event: a completion
whose token is mapped removes the record and wakes its waker; an unmapped token
is ignored. -/
def drainStep (acc : RingWakerState × List Nat) (ev : Nat × Int) :
    RingWakerState × List Nat :=
  let (st, woken) := acc
  match alLookup ev.1 st.token_map with
  | some entry =>
    ({ st with token_map := alRemove ev.1 st.token_map }, woken ++ [entry.waker])
  | none => (st, woken)

/-- RingWakerState::wait_wake_event.  `waitRes` is the outcome of `ctx.wait()`:
an error, or the batch of completions `(token, result)` the kernel reported.
Returns the new state, the Rust function's Result, and the list of waker ids
whose wake callback was invoked. -/
def RingWakerState.wait_wake_event (s : RingWakerState)
    (waitRes : Except ExtError (List (Nat × Int))) :
    RingWakerState × Except UringError Unit × List Nat :=
  match waitRes with
  | .error e => (s, .error (.URingEnter e), [])
  | .ok events =>
    let (s1, woken) := events.foldl drainStep (s, [])
    (s1, .ok (), woken)

/-- notify_fd_ready from uring_executor.rs: dispatches add_fd through the
thread-local STATE; with no live reactor (`ts = none`) it fails with
InvalidContext and leaves the thread-local slot empty. -/
def notify_fd_ready (ts : Option RingWakerState) (dupRes : Except ExtError Nat)
    (submitRes : Option ExtError) (waker : Nat) (events : WatchingEvents) :
    Option RingWakerState × Except UringError WakerToken :=
  match ts with
  | some s =>
    let (s1, r) := s.add_fd dupRes submitRes waker events
    (some s1, r)
  | none => (none, .error .InvalidContext)

/-- add_read_waker from uring_executor.rs. -/
def add_read_waker (ts : Option RingWakerState) (dupRes : Except ExtError Nat)
    (submitRes : Option ExtError) (waker : Nat) :
    Option RingWakerState × Except UringError WakerToken :=
  notify_fd_ready ts dupRes submitRes waker (WatchingEvents.empty.set_read)

/-- add_write_waker from uring_executor.rs. -/
def add_write_waker (ts : Option RingWakerState) (dupRes : Except ExtError Nat)
    (submitRes : Option ExtError) (waker : Nat) :
    Option RingWakerState × Except UringError WakerToken :=
  notify_fd_ready ts dupRes submitRes waker (WatchingEvents.empty.set_write)

/-- cancel_waker (module-level) from uring_executor.rs: dispatches through the
thread-local STATE, failing with InvalidContext when no reactor is live. -/
def cancel_waker (ts : Option RingWakerState) (removeRes : Option ExtError)
    (token : WakerToken) : Option RingWakerState × Except UringError Unit :=
  match ts with
  | some s =>
    let (s1, r) := s.cancel_waker removeRes token
    (some s1, r)
  | none => (none, .error .InvalidContext)

/-- add_future from uring_executor.rs: pushes the boxed future (opaque id) onto
the back of new_futures, failing with InvalidContext when no reactor is live. -/
def add_future (ts : Option RingWakerState) (fut : Nat) :
    Option RingWakerState × Except UringError Unit :=
  match ts with
  | some s => (some { s with new_futures := s.new_futures ++ [fut] }, .ok ())
  | none => (none, .error .InvalidContext)

/-- URingExecutor::new, acting on the thread-local STATE slot: if a reactor is
already live the call fails with AttemptedDuplicateExecutor and the slot (and
hence the live reactor's state) is untouched; otherwise a fresh RingWakerState
is created (context creation outcome `ctxRes`) and installed. -/
def uringExecutorNew (ts : Option RingWakerState) (ctxRes : Option ExtError) :
    Except UringError Unit × Option RingWakerState :=
  match ts with
  | some s => (.error .AttemptedDuplicateExecutor, some s)
  | none =>
    match RingWakerState.new ctxRes with
    | .error e => (.error e, none)
    | .ok s => (.ok (), some s)

/-- Drop for URingExecutor: the thread-local STATE slot is cleared. -/
def uringExecutorDrop (ts : Option RingWakerState) : Option RingWakerState :=
  match ts with
  | some _ => none
  | none => none

/-- Modelled from the spec: the `FutureList` trait lives in the crate's
executor.rs, which is not among the given sources.  Per the spec a task-list
owns the tasks and the termination policy; the run loop consumes it through
`poll_results` (poll every unfinished task, return the output when the
termination policy is satisfied), `any_ready` (is some task ready to be polled
again), appending newly submitted futures, and receiving wake callbacks.
Futures and wakers are opaque ids. -/
structure FutureList (σ : Type) (α : Type) where
  poll_results : σ → σ × Option α
  any_ready : σ → Bool
  append : σ → List Nat → σ
  wake : σ → List Nat → σ

/-- The loop body of URingExecutor::run.  `fuel` bounds the number of loop
iterations (the Rust loop may diverge); `waits` is the stream of outcomes the
kernel would deliver for successive `ctx.wait()` calls, and the run result is
paired with the number of blocking waits performed.  `none` means the fuel ran
out (or the kernel would block forever with an exhausted wait stream). -/
def runLoop (FL : FutureList σ α) (fuel : Nat) (fl : σ) (ws : RingWakerState)
    (waits : List (Except ExtError (List (Nat × Int)))) (nwaits : Nat) :
    Option (Except UringError (α × Nat)) :=
  match fuel with
  | 0 => none
  | fuel' + 1 =>
    let (fl1, res) := FL.poll_results fl
    match res with
    | some output => some (.ok (output, nwaits))
    | none =>
      let fl2 := FL.append fl1 ws.new_futures
      let ws2 := { ws with new_futures := [] }
      if FL.any_ready fl2 then
        runLoop FL fuel' fl2 ws2 waits nwaits
      else
        match waits with
        | [] => none
        | w :: rest =>
          match ws2.wait_wake_event w with
          | (_, .error e, _) => some (.error e)
          | (ws3, .ok (), woken) =>
            runLoop FL fuel' (FL.wake fl2 woken) ws3 rest (nwaits + 1)

/-- URingExecutor::run: merge queued futures once, then iterate the loop. -/
def uringRun (FL : FutureList σ α) (fuel : Nat) (fl : σ) (ws : RingWakerState)
    (waits : List (Except ExtError (List (Nat × Int)))) :
    Option (Except UringError (α × Nat)) :=
  runLoop FL fuel (FL.append fl ws.new_futures) { ws with new_futures := [] } waits 0

/-- One call of use_uring from src/cros_async/src/lib.rs: reads the tri-state
cache (0 = UNKNOWN, 1 = URING, 2 = FD).  In the UNKNOWN state it probes
(`probe` is the outcome of uring_executor::supported()) and commits the result;
otherwise it returns the cached choice.  The result records the returned bool,
the new cache state and whether the probe ran; `none` models the unreachable
arm for an out-of-range cache state. -/
def useUringStep (probe : Bool) (st : Nat) : Option (Bool × Nat × Bool) :=
  if st = 0 then
    if probe then some (true, 1, true) else some (false, 2, true)
  else if st = 1 then some (true, 1, false)
  else if st = 2 then some (false, 2, false)
  else none

/-- A sequence of n use_uring calls: the list of returned choices, the final
cache state, and the total number of probe invocations. -/
def useUringCalls (probe : Bool) (st : Nat) : Nat → Option (List Bool × Nat × Nat)
  | 0 => some ([], st, 0)
  | n + 1 =>
    match useUringStep probe st with
    | none => none
    | some (b, st1, probed) =>
      match useUringCalls probe st1 n with
      | none => none
      | some (bs, stf, c) => some (b :: bs, stf, c + (if probed then 1 else 0))

/-- Modelled from the spec: the fd (portable) executor lives in fd_executor.rs,
which is not among the given sources.  run_executor only forwards its result, so
it is modelled as an opaque outcome with an opaque error type. -/
abbrev FdError := Nat

/-- The top-level error enum from src/cros_async/src/lib.rs. -/
inductive CrosError where
  | FdExecutor (e : FdError)
  | URingExecutor (e : UringError)
deriving DecidableEq, Repr

/-- run_executor from src/cros_async/src/lib.rs, specialized to an already
consulted backend choice `useUring` (the cached use_uring() result):
`URingExecutor::new(list).and_then(|ex| ex.run()).map_err(URingExecutor)` on the
ring path, the opaque fd-executor outcome mapped with FdExecutor otherwise. -/
def run_executor (useUring : Bool) (ts : Option RingWakerState) (ctxRes : Option ExtError)
    (FL : FutureList σ α) (fuel : Nat) (fl : σ)
    (waits : List (Except ExtError (List (Nat × Int))))
    (fdOutcome : Option (Except FdError (α × Nat))) :
    Option (Except CrosError (α × Nat)) :=
  if useUring then
    match uringExecutorNew ts ctxRes with
    | (.error e, _) => some (.error (.URingExecutor e))
    | (.ok (), some ws) =>
      (uringRun FL fuel fl ws waits).map fun r =>
        match r with
        | .error e => .error (.URingExecutor e)
        | .ok v => .ok v
    | (.ok (), none) => none
  else
    fdOutcome.map fun r =>
      match r with
      | .error e => .error (.FdExecutor e)
      | .ok v => .ok v

/-- Bookkeeping invariant of the token map: keys are pairwise distinct (each
token maps to at most one record) and every mapped key is below the next-token
counter (so the counter is always fresh). -/
def goodTokens (s : RingWakerState) : Prop :=
  (s.token_map.map Prod.fst).Nodup ∧ ∀ k ∈ s.token_map.map Prod.fst, k < s.next_token

instance (s : RingWakerState) : Decidable (goodTokens s) := by
  unfold goodTokens; infer_instance

/-- Modelled from the spec: RunOne of a task that completes on its first poll,
yielding `v`.  RunOne lives in the crate's executor.rs, which is not among the
given sources; per the spec it holds one task and terminates on its completion
with that task's result. -/
def runOneImmediate (v : α) : FutureList Unit α where
  poll_results := fun s => (s, some v)
  any_ready := fun _ => true
  append := fun s _ => s
  wake := fun s _ => s

/-- Modelled from the spec: a task list whose single task never completes and
registers no readiness, so a poll pass makes no progress. -/
def neverReadyList : FutureList Unit Nat where
  poll_results := fun s => (s, none)
  any_ready := fun _ => false
  append := fun s _ => s
  wake := fun s _ => s

end CrosAsync

namespace Qcow

/-- The qcow l2_cache error enum. -/
inductive L2Error where
  | InvalidVectorLength
deriving DecidableEq, Repr

/-- L2Table from src/qcow/src/l2_cache.rs. -/
structure L2Table where
  cluster_addrs : List Nat
  dirty : Bool
deriving DecidableEq, Repr

/-- L2Table::new.  The Rust source builds `vec![0, table_size as u64]`: the
two-element vector whose entries are 0 and table_size (not a vector of
table_size zeros). -/
def L2Table.new (table_size : Nat) : L2Table :=
  ⟨[0, table_size], true⟩

/-- L2Table::from_vec. -/
def L2Table.from_vec (addrs : List Nat) : L2Table :=
  ⟨addrs, false⟩

/-- L2Table::get. -/
def L2Table.get (t : L2Table) (index : Nat) : Nat :=
  (t.cluster_addrs.get? index).getD 0

/-- L2Table::set. -/
def L2Table.set (t : L2Table) (index : Nat) (val : Nat) : L2Table :=
  if index < t.cluster_addrs.length then
    { cluster_addrs := t.cluster_addrs.set index val, dirty := true }
  else t

/-- L2Cache from src/qcow/src/l2_cache.rs.  The HashMap of tables is modelled as
an association list; `capacity` models `tables.capacity()` as the requested
capacity. -/
structure L2Cache where
  tables : List (Nat × L2Table)
  table_size : Nat
  capacity : Nat
deriving DecidableEq, Repr

/-- L2Cache::new. -/
def L2Cache.new (table_size capacity : Nat) : L2Cache :=
  ⟨[], table_size, capacity⟩

/-- L2Cache::get_table. -/
def L2Cache.get_table (c : L2Cache) (l1_index : Nat) : Option L2Table :=
  (c.tables.find? fun p => p.1 = l1_index).map Prod.snd

/-- L2Cache::create_table. -/
def L2Cache.create_table (c : L2Cache) : L2Table :=
  L2Table.new c.table_size

/-- L2Cache::insert.  When the map is full the first key is evicted; `none`
models the panic of `keys().nth(0).unwrap()` on an empty full map. -/
def L2Cache.insert (c : L2Cache) (l1_index : Nat) (table : L2Table) :
    Option (L2Cache × Option L2Table) :=
  if c.tables.length = c.capacity then
    match c.tables with
    | [] => none
    | (_, t0) :: rest =>
      some ({ c with tables := (rest.filter fun p => p.1 ≠ l1_index) ++ [(l1_index, table)] },
        some t0)
  else
    some ({ c with tables := (c.tables.filter fun p => p.1 ≠ l1_index) ++ [(l1_index, table)] },
      none)

/-- L2Cache::insert_vec: rejects a vector whose length differs from the cache's
table size, otherwise inserts it as a clean table. -/
def L2Cache.insert_vec (c : L2Cache) (l1_index : Nat) (addrs : List Nat) :
    Except L2Error (Option (L2Cache × Option L2Table)) :=
  if addrs.length ≠ c.table_size then .error .InvalidVectorLength
  else .ok (c.insert l1_index (L2Table.from_vec addrs))

end Qcow

namespace CrosAsync

/-- Looking a key up after removing it always misses. -/
theorem alLookup_alRemove_self (k : Nat) (m : List (Nat × Entry)) :
    alLookup k (alRemove k m) = none := by
  induction m with
  | nil => rfl
  | cons p rest ih =>
    by_cases h : p.1 = k
    · simpa [alRemove, List.filter_cons, h] using ih
    · simpa [alRemove, List.filter_cons, h, alLookup] using ih

/-- A lookup misses exactly when the key is absent from the key list. -/
theorem alLookup_eq_none_iff (k : Nat) (m : List (Nat × Entry)) :
    alLookup k m = none ↔ k ∉ m.map Prod.fst := by
  induction m with
  | nil => simp [alLookup]
  | cons p rest ih =>
    by_cases h : p.1 = k
    · simp [alLookup, h]
    · simp [alLookup, h, ih, Ne.symm h]

/-- Removal filters the key list. -/
theorem keys_alRemove (k : Nat) (m : List (Nat × Entry)) :
    (alRemove k m).map Prod.fst = (m.map Prod.fst).filter (fun x => x ≠ k) := by
  induction m with
  | nil => rfl
  | cons p rest ih =>
    by_cases h : p.1 = k
    · simp [alRemove, List.filter_cons, h] at ih ⊢
      exact ih
    · simp [alRemove, List.filter_cons, h] at ih ⊢
      exact ih

/-- C2.  At most one reactor per thread: URingExecutor::new on a thread whose
STATE slot already holds a live RingWakerState fails with
AttemptedDuplicateExecutor and leaves that state untouched, while constructing
after the previous executor was dropped (slot cleared) succeeds with a fresh
state, given that kernel context creation succeeds. -/
theorem uring_new_unique_per_thread :
    (∀ (s : RingWakerState) (ctxRes : Option ExtError),
      uringExecutorNew (some s) ctxRes = (.error .AttemptedDuplicateExecutor, some s))
  ∧ (∀ (s : RingWakerState),
      uringExecutorNew (uringExecutorDrop (some s)) none = (.ok (), some ⟨[], [], 0, []⟩)) := by
  exact ⟨fun s ctxRes => rfl, fun s => rfl⟩

/-- C3.  Registration on a live reactor: the descriptor stored and submitted is
the duplicate produced by dup, the interest is submitted to the kernel context
tagged with the current next_token, the record is stored under that token, the
counter is incremented and the token returned.  If kernel submission fails the
call errors with SubmittingWaker and neither stores a record nor increments the
counter; if duplication fails it errors with DuplicatingFd and changes nothing. -/
theorem add_fd_fresh_token_registration :
    (∀ (s : RingWakerState) (duped w : Nat) (ev : WatchingEvents),
      notify_fd_ready (some s) (.ok duped) none w ev =
        (some { ctx_log := s.ctx_log ++ [.addPoll duped ev s.next_token],
                token_map := alInsert s.next_token ⟨duped, ev, w⟩ s.token_map,
                next_token := s.next_token + 1,
                new_futures := s.new_futures },
          .ok ⟨s.next_token⟩))
  ∧ (∀ (s : RingWakerState) (duped e w : Nat) (ev : WatchingEvents),
      notify_fd_ready (some s) (.ok duped) (some e) w ev =
        (some { s with ctx_log := s.ctx_log ++ [.addPoll duped ev s.next_token] },
          .error (.SubmittingWaker e)))
  ∧ (∀ (s : RingWakerState) (e w : Nat) (ev : WatchingEvents),
      notify_fd_ready (some s) (.error e) none w ev = (some s, .error (.DuplicatingFd e))) := by
  refine ⟨fun s duped w ev => rfl, fun s duped e w ev => rfl, fun s e w ev => rfl⟩

/-- Later use_uring calls in the URING state return true without probing. -/
theorem useUringCalls_uring (probe : Bool) (n : Nat) :
    useUringCalls probe 1 n = some (List.replicate n true, 1, 0) := by
  induction n with
  | zero => rfl
  | succ n ih => simp [useUringCalls, useUringStep, ih, List.replicate_succ]

/-- Later use_uring calls in the FD state return false without probing. -/
theorem useUringCalls_fd (probe : Bool) (n : Nat) :
    useUringCalls probe 2 n = some (List.replicate n false, 2, 0) := by
  induction n with
  | zero => rfl
  | succ n ih => simp [useUringCalls, useUringStep, ih, List.replicate_succ]

/-- C7.  The backend selector probes availability exactly once per process: any
sequence of n+1 use_uring calls starting from the UNKNOWN cache state performs
exactly one probe, every call returns the probe's outcome, and the cache ends in
the committed state (URING if the probe succeeded, FD otherwise). -/
theorem use_uring_probes_once (probe : Bool) (n : Nat) :
    useUringCalls probe 0 (n + 1) =
      some (List.replicate (n + 1) probe, (if probe then 1 else 2), 1) := by
  cases probe with
  | true =>
    simp [useUringCalls, useUringStep, useUringCalls_uring, List.replicate_succ]
  | false =>
    simp [useUringCalls, useUringStep, useUringCalls_fd, List.replicate_succ]

/-- C9.  Every public registry operation invoked with no live reactor in the
thread-local slot returns InvalidContext and leaves the slot empty. -/
theorem registry_invalid_context_without_reactor :
    (∀ (dupRes : Except ExtError Nat) (submitRes : Option ExtError) (w : Nat),
      add_read_waker none dupRes submitRes w = (none, .error .InvalidContext))
  ∧ (∀ (dupRes : Except ExtError Nat) (submitRes : Option ExtError) (w : Nat),
      add_write_waker none dupRes submitRes w = (none, .error .InvalidContext))
  ∧ (∀ (removeRes : Option ExtError) (t : WakerToken),
      cancel_waker none removeRes t = (none, .error .InvalidContext))
  ∧ (∀ (fut : Nat), add_future none fut = (none, .error .InvalidContext)) := by
  refine ⟨fun _ _ _ => rfl, fun _ _ _ => rfl, fun _ _ => rfl, fun _ => rfl⟩

/-- C4.  Cancellation: a mapped token has its record removed and kernel-side
removal requested, and the call fails exactly when that kernel request fails; an
unmapped token is a no-op success; consequently cancelling the same token twice
is always a harmless no-op the second time. -/
theorem cancel_waker_removes_and_idempotent :
    (∀ (s : RingWakerState) (entry : Entry) (t : WakerToken),
      alLookup t.val s.token_map = some entry →
      s.cancel_waker none t =
        ({ s with token_map := alRemove t.val s.token_map,
                  ctx_log := s.ctx_log ++ [.removePoll entry.fd entry.events t.val] },
          .ok ()))
  ∧ (∀ (s : RingWakerState) (entry : Entry) (e : ExtError) (t : WakerToken),
      alLookup t.val s.token_map = some entry →
      s.cancel_waker (some e) t =
        ({ s with token_map := alRemove t.val s.token_map,
                  ctx_log := s.ctx_log ++ [.removePoll entry.fd entry.events t.val] },
          .error (.RemovingWaker e)))
  ∧ (∀ (s : RingWakerState) (removeRes : Option ExtError) (t : WakerToken),
      alLookup t.val s.token_map = none →
      s.cancel_waker removeRes t = (s, .ok ()))
  ∧ (∀ (s : RingWakerState) (r1 r2 : Option ExtError) (t : WakerToken),
      (s.cancel_waker r1 t).1.cancel_waker r2 t = ((s.cancel_waker r1 t).1, .ok ())) := by
  have habsent : ∀ (s : RingWakerState) (removeRes : Option ExtError) (t : WakerToken),
      alLookup t.val s.token_map = none → s.cancel_waker removeRes t = (s, .ok ()) := by
    intro s removeRes t h
    simp [RingWakerState.cancel_waker, h]
  refine ⟨?_, ?_, habsent, ?_⟩
  · intro s entry t h
    simp [RingWakerState.cancel_waker, h]
  · intro s entry e t h
    simp [RingWakerState.cancel_waker, h]
  · intro s r1 r2 t
    cases h : alLookup t.val s.token_map with
    | some entry =>
      have h1 : (s.cancel_waker r1 t).1 =
          { s with token_map := alRemove t.val s.token_map,
                   ctx_log := s.ctx_log ++ [.removePoll entry.fd entry.events t.val] } := by
        cases r1 with
        | some e => simp [RingWakerState.cancel_waker, h]
        | none => simp [RingWakerState.cancel_waker, h]
      rw [h1]
      exact habsent _ r2 t (alLookup_alRemove_self t.val s.token_map)
    | none =>
      rw [habsent s r1 t h]
      exact habsent s r2 t h

/-- Closed witness for C4: cancelling token 0 while it is mapped removes its
record and logs the kernel removal request. -/
theorem cancel_waker_removes_and_idempotent_witness :
    alLookup 0 [(0, ⟨5, ⟨true, false⟩, 7⟩)] = some ⟨5, ⟨true, false⟩, 7⟩
  ∧ RingWakerState.cancel_waker ⟨[], [(0, ⟨5, ⟨true, false⟩, 7⟩)], 1, []⟩ none ⟨0⟩ =
      (⟨[.removePoll 5 ⟨true, false⟩ 0], [], 1, []⟩, .ok ()) := by
  refine ⟨by decide, ?_⟩
  have h := cancel_waker_removes_and_idempotent.1
    ⟨[], [(0, ⟨5, ⟨true, false⟩, 7⟩)], 1, []⟩ ⟨5, ⟨true, false⟩, 7⟩ ⟨0⟩ (by decide)
  simpa using h

/-- The woken-waker accumulator of the drain fold only ever grows by appending:
starting the fold with a nonempty accumulator prepends it to the result. -/
theorem drain_foldl_accum (evs : List (Nat × Int)) (s : RingWakerState) (w : List Nat) :
    evs.foldl drainStep (s, w) =
      ((evs.foldl drainStep (s, [])).1, w ++ (evs.foldl drainStep (s, [])).2) := by
  induction evs generalizing s w with
  | nil => simp
  | cons ev rest ih =>
    simp only [List.foldl_cons]
    cases h : alLookup ev.1 s.token_map with
    | some entry =>
      simp only [drainStep, h, List.nil_append]
      rw [ih _ (w ++ [entry.waker]), ih _ [entry.waker]]
      simp
    | none =>
      simp only [drainStep, h]
      rw [ih]

/-- C5.  Draining completions: a batch of kernel completions never produces an
error (unknown tokens are silently ignored); a completion for a mapped token
removes that record and invokes its wake callback; a completion for an unmapped
token changes nothing; and a batch is processed as its head completion followed
by the rest, with the woken callbacks concatenated in order.  The kernel-side
guarantee that the wait blocks until at least one completion is available lives
in the external io_uring crate; here the reported batch is the wait outcome. -/
theorem wait_wake_event_drains_completions :
    (∀ (s : RingWakerState) (evs : List (Nat × Int)),
      (s.wait_wake_event (.ok evs)).2.1 = .ok ())
  ∧ (∀ (s : RingWakerState) (entry : Entry) (t : Nat) (r : Int),
      alLookup t s.token_map = some entry →
      s.wait_wake_event (.ok [(t, r)]) =
        ({ s with token_map := alRemove t s.token_map }, .ok (), [entry.waker]))
  ∧ (∀ (s : RingWakerState) (t : Nat) (r : Int),
      alLookup t s.token_map = none →
      s.wait_wake_event (.ok [(t, r)]) = (s, .ok (), []))
  ∧ (∀ (s : RingWakerState) (ev : Nat × Int) (evs : List (Nat × Int)),
      (s.wait_wake_event (.ok (ev :: evs))).1 =
        ((s.wait_wake_event (.ok [ev])).1.wait_wake_event (.ok evs)).1
    ∧ (s.wait_wake_event (.ok (ev :: evs))).2.2 =
        (s.wait_wake_event (.ok [ev])).2.2 ++
          ((s.wait_wake_event (.ok [ev])).1.wait_wake_event (.ok evs)).2.2) := by
  refine ⟨?_, ?_, ?_, ?_⟩
  · intro s evs
    simp [RingWakerState.wait_wake_event]
  · intro s entry t r h
    simp [RingWakerState.wait_wake_event, drainStep, h]
  · intro s t r h
    simp [RingWakerState.wait_wake_event, drainStep, h]
  · intro s ev evs
    rcases h1 : drainStep (s, []) ev with ⟨d1, dw⟩
    have hacc := drain_foldl_accum evs d1 dw
    refine ⟨?_, ?_⟩ <;>
      simp [RingWakerState.wait_wake_event, List.foldl_cons, h1, hacc]

/-- Closed witness for C5: draining the completion for mapped token 3 removes
its record and wakes waker 7; a completion for unmapped token 9 is ignored. -/
theorem wait_wake_event_drains_completions_witness :
    alLookup 3 [(3, ⟨5, ⟨true, false⟩, 7⟩)] = some ⟨5, ⟨true, false⟩, 7⟩
  ∧ RingWakerState.wait_wake_event ⟨[], [(3, ⟨5, ⟨true, false⟩, 7⟩)], 4, []⟩ (.ok [(3, 0)]) =
      (⟨[], [], 4, []⟩, .ok (), [7])
  ∧ RingWakerState.wait_wake_event ⟨[], [(3, ⟨5, ⟨true, false⟩, 7⟩)], 4, []⟩ (.ok [(9, 0)]) =
      (⟨[], [(3, ⟨5, ⟨true, false⟩, 7⟩)], 4, []⟩, .ok (), []) := by
  refine ⟨by decide, ?_, ?_⟩
  · have h := wait_wake_event_drains_completions.2.1
      ⟨[], [(3, ⟨5, ⟨true, false⟩, 7⟩)], 4, []⟩ ⟨5, ⟨true, false⟩, 7⟩ 3 0 (by decide)
    simpa using h
  · have h := wait_wake_event_drains_completions.2.2.1
      ⟨[], [(3, ⟨5, ⟨true, false⟩, 7⟩)], 4, []⟩ 9 0 (by decide)
    simpa using h

/-- Insertion prepends the key and filters it from the tail's key list. -/
theorem keys_alInsert (k : Nat) (v : Entry) (m : List (Nat × Entry)) :
    (alInsert k v m).map Prod.fst = k :: (m.map Prod.fst).filter (fun x => x ≠ k) := by
  simp [alInsert, keys_alRemove]

/-- The invariant's two components survive removing any key. -/
theorem goodTokens_remove (m : List (Nat × Entry)) (n k : Nat)
    (h1 : (m.map Prod.fst).Nodup) (h2 : ∀ x ∈ m.map Prod.fst, x < n) :
    ((alRemove k m).map Prod.fst).Nodup ∧ ∀ x ∈ (alRemove k m).map Prod.fst, x < n := by
  rw [keys_alRemove]
  exact ⟨h1.filter _, fun x hx => h2 x (List.mem_of_mem_filter hx)⟩

/-- Under the invariant, the next-token counter is not a mapped key. -/
theorem alLookup_next_token (s : RingWakerState) (h : goodTokens s) :
    alLookup s.next_token s.token_map = none := by
  rw [alLookup_eq_none_iff]
  intro hmem
  exact absurd (h.2 _ hmem) (lt_irrefl _)

/-- add_fd preserves the token-map invariant, whatever the kernel outcomes. -/
theorem goodTokens_add_fd (s : RingWakerState) (dupRes : Except ExtError Nat)
    (submitRes : Option ExtError) (w : Nat) (ev : WatchingEvents)
    (h : goodTokens s) : goodTokens (s.add_fd dupRes submitRes w ev).1 := by
  cases dupRes with
  | error e => exact h
  | ok duped =>
    cases submitRes with
    | some e => exact h
    | none =>
      refine ⟨?_, ?_⟩
      · show ((alInsert s.next_token ⟨duped, ev, w⟩ s.token_map).map Prod.fst).Nodup
        rw [keys_alInsert]
        refine List.nodup_cons.mpr ⟨?_, h.1.filter _⟩
        intro hmem
        have := (List.mem_filter.mp hmem).2
        simp at this
      · show ∀ x ∈ (alInsert s.next_token ⟨duped, ev, w⟩ s.token_map).map Prod.fst,
          x < s.next_token + 1
        rw [keys_alInsert]
        intro x hx
        rcases List.mem_cons.mp hx with rfl | hx'
        · exact Nat.lt_succ_self _
        · exact Nat.lt_succ_of_lt (h.2 x (List.mem_of_mem_filter hx'))

/-- cancel_waker preserves the token-map invariant. -/
theorem goodTokens_cancel (s : RingWakerState) (removeRes : Option ExtError)
    (t : WakerToken) (h : goodTokens s) : goodTokens (s.cancel_waker removeRes t).1 := by
  have hrem := goodTokens_remove s.token_map s.next_token t.val h.1 h.2
  unfold RingWakerState.cancel_waker
  cases alLookup t.val s.token_map with
  | some entry =>
    cases removeRes with
    | some e => exact hrem
    | none => exact hrem
  | none => exact h

/-- Each drain step preserves the token-map invariant. -/
theorem goodTokens_drain (evs : List (Nat × Int)) (s : RingWakerState) (w : List Nat)
    (h : goodTokens s) : goodTokens (evs.foldl drainStep (s, w)).1 := by
  induction evs generalizing s w with
  | nil => exact h
  | cons ev rest ih =>
    simp only [List.foldl_cons]
    cases hl : alLookup ev.1 s.token_map with
    | some entry =>
      simp only [drainStep, hl]
      exact ih _ _ (goodTokens_remove s.token_map s.next_token ev.1 h.1 h.2)
    | none =>
      simp only [drainStep, hl]
      exact ih _ _ h

/-- wait_wake_event preserves the token-map invariant. -/
theorem goodTokens_wait (s : RingWakerState) (waitRes : Except ExtError (List (Nat × Int)))
    (h : goodTokens s) : goodTokens (s.wait_wake_event waitRes).1 := by
  cases waitRes with
  | error e => exact h
  | ok evs =>
    rcases hf : evs.foldl drainStep (s, []) with ⟨s1, w⟩
    have hd := goodTokens_drain evs s [] h
    rw [hf] at hd
    simpa [RingWakerState.wait_wake_event, hf] using hd

/-- C6.  Token bookkeeping: a fresh reactor state satisfies the token invariant
(pairwise-distinct mapped keys, all below the counter); two successive
successful registrations return strictly increasing tokens; under the invariant
a successful registration's token was not previously mapped (no reuse while
mapped); and registration, cancellation and draining all preserve the
invariant, so each token maps to at most one record at any time. -/
theorem waker_tokens_monotone_and_unique :
    (∀ (s0 : RingWakerState), RingWakerState.new none = .ok s0 → goodTokens s0)
  ∧ (∀ (s : RingWakerState) (d1 d2 w1 w2 : Nat) (ev1 ev2 : WatchingEvents)
        (t t' : WakerToken),
      (s.add_fd (.ok d1) none w1 ev1).2 = .ok t →
      ((s.add_fd (.ok d1) none w1 ev1).1.add_fd (.ok d2) none w2 ev2).2 = .ok t' →
      t.val < t'.val)
  ∧ (∀ (s : RingWakerState) (d w : Nat) (ev : WatchingEvents) (t : WakerToken),
      goodTokens s → (s.add_fd (.ok d) none w ev).2 = .ok t →
      alLookup t.val s.token_map = none)
  ∧ (∀ (s : RingWakerState) (dupRes : Except ExtError Nat) (submitRes : Option ExtError)
        (w : Nat) (ev : WatchingEvents),
      goodTokens s → goodTokens (s.add_fd dupRes submitRes w ev).1)
  ∧ (∀ (s : RingWakerState) (removeRes : Option ExtError) (t : WakerToken),
      goodTokens s → goodTokens (s.cancel_waker removeRes t).1)
  ∧ (∀ (s : RingWakerState) (waitRes : Except ExtError (List (Nat × Int))),
      goodTokens s → goodTokens (s.wait_wake_event waitRes).1) := by
  refine ⟨?_, ?_, ?_, goodTokens_add_fd, goodTokens_cancel, goodTokens_wait⟩
  · intro s0 h0
    have h0' : RingWakerState.mk [] [] 0 [] = s0 := by
      simpa [RingWakerState.new] using h0
    cases h0'
    exact ⟨List.nodup_nil, by intro k hk; cases hk⟩
  · intro s d1 d2 w1 w2 ev1 ev2 t t' h1 h2
    have e1 : (s.add_fd (.ok d1) none w1 ev1).2 = .ok ⟨s.next_token⟩ := rfl
    have e3 : ((s.add_fd (.ok d1) none w1 ev1).1.add_fd (.ok d2) none w2 ev2).2 =
        .ok ⟨s.next_token + 1⟩ := rfl
    rw [e1] at h1
    rw [e3] at h2
    cases h1
    cases h2
    exact Nat.lt_succ_self _
  · intro s d w ev t h ht
    have e1 : (s.add_fd (.ok d) none w ev).2 = .ok ⟨s.next_token⟩ := rfl
    rw [e1] at ht
    cases ht
    exact alLookup_next_token s h

/-- Closed witness for C6: two successful registrations from the empty state
return tokens 0 then 1, and under the invariant a registration from a state
mapping token 0 with counter 1 returns the unmapped token 1. -/
theorem waker_tokens_monotone_and_unique_witness :
    (WakerToken.mk 0).val < (WakerToken.mk 1).val
  ∧ goodTokens ⟨[], [(0, ⟨4, ⟨true, false⟩, 6⟩)], 1, []⟩
  ∧ alLookup 1 [(0, ⟨4, ⟨true, false⟩, 6⟩)] = none := by
  refine ⟨?_, by decide, ?_⟩
  · exact waker_tokens_monotone_and_unique.2.1
      ⟨[], [], 0, []⟩ 3 4 5 6 ⟨true, false⟩ ⟨false, true⟩ ⟨0⟩ ⟨1⟩ rfl rfl
  · exact waker_tokens_monotone_and_unique.2.2.1
      ⟨[], [(0, ⟨4, ⟨true, false⟩, 6⟩)], 1, []⟩ 5 7 ⟨true, false⟩ ⟨1⟩ (by decide) rfl

/-- A poll pass that yields an output terminates the loop at once with the
current blocking-wait count. -/
theorem runLoop_poll_some {σ α : Type} (FL : FutureList σ α) (fuel : Nat) (fl : σ)
    (ws : RingWakerState) (waits : List (Except ExtError (List (Nat × Int))))
    (nwaits : Nat) (out : α) (h : (FL.poll_results fl).2 = some out) :
    runLoop FL (fuel + 1) fl ws waits nwaits = some (.ok (out, nwaits)) := by
  rcases hp : FL.poll_results fl with ⟨fl1, res⟩
  rw [hp] at h
  simp only at h
  subst h
  simp [runLoop, hp]

/-- When some task is always ready to poll again, the loop never takes the
blocking branch: the wait count of any successful run stays at its start. -/
theorem runLoop_no_wait_when_ready {σ α : Type} (FL : FutureList σ α)
    (hready : ∀ t, FL.any_ready t = true) :
    ∀ (fuel : Nat) (fl : σ) (ws : RingWakerState)
      (waits : List (Except ExtError (List (Nat × Int)))) (nwaits : Nat) (out : α) (n : Nat),
      runLoop FL fuel fl ws waits nwaits = some (.ok (out, n)) → n = nwaits := by
  intro fuel
  induction fuel with
  | zero =>
    intro fl ws waits nwaits out n h
    simp [runLoop] at h
  | succ fuel ih =>
    intro fl ws waits nwaits out n h
    rcases hp : FL.poll_results fl with ⟨fl1, res⟩
    simp only [runLoop, hp] at h
    cases res with
    | some o =>
      simp only [Option.some.injEq] at h
      rcases h with h
      cases h
      rfl
    | none =>
      simp only [hready] at h
      simp only [if_true] at h
      exact ih _ _ _ _ _ _ h

/-- C1.  The run loop blocks only when a full poll pass makes no progress: if
every state reports a ready task the loop never waits (any successful run
performed zero blocking waits), and a task list whose first poll pass already
yields an output makes run return that output having performed zero blocking
waits. -/
theorem uring_run_blocks_only_without_progress {σ α : Type} :
    (∀ (FL : FutureList σ α) (fl : σ) (ws : RingWakerState)
        (waits : List (Except ExtError (List (Nat × Int)))) (fuel : Nat) (out : α),
      (FL.poll_results (FL.append fl ws.new_futures)).2 = some out →
      uringRun FL (fuel + 1) fl ws waits = some (.ok (out, 0)))
  ∧ (∀ (FL : FutureList σ α), (∀ t, FL.any_ready t = true) →
      ∀ (fuel : Nat) (fl : σ) (ws : RingWakerState)
        (waits : List (Except ExtError (List (Nat × Int)))) (out : α) (n : Nat),
      uringRun FL fuel fl ws waits = some (.ok (out, n)) → n = 0) := by
  constructor
  · intro FL fl ws waits fuel out h
    exact runLoop_poll_some FL fuel _ _ waits 0 out h
  · intro FL hready fuel fl ws waits out n h
    exact runLoop_no_wait_when_ready FL hready fuel _ _ waits 0 out n h

/-- Closed witness for C1: run-one of a task that immediately yields 5 returns
5 with zero blocking waits performed. -/
theorem uring_run_blocks_only_without_progress_witness :
    ((runOneImmediate 5).poll_results ((runOneImmediate 5).append () [])).2 = some 5
  ∧ uringRun (runOneImmediate 5) 1 () ⟨[], [], 0, []⟩ [] = some (.ok (5, 0)) := by
  refine ⟨rfl, ?_⟩
  exact uring_run_blocks_only_without_progress.1 (runOneImmediate 5) ()
    ⟨[], [], 0, []⟩ [] 0 5 rfl

/-- C8.  A kernel wait failure is fatal: when a poll pass makes no progress and
the kernel wait fails, the run loop stops at once with the URingEnter error,
and run_executor surfaces that run error as the single outer URingExecutor
error of the entry point — the Except result carries no partial outputs. -/
theorem wait_failure_propagates_to_entry_point {σ α : Type} :
    (∀ (FL : FutureList σ α) (fuel : Nat) (fl : σ) (ws : RingWakerState)
        (e : ExtError) (rest : List (Except ExtError (List (Nat × Int)))) (nwaits : Nat),
      (FL.poll_results fl).2 = none →
      FL.any_ready (FL.append (FL.poll_results fl).1 ws.new_futures) = false →
      runLoop FL (fuel + 1) fl ws (.error e :: rest) nwaits =
        some (.error (.URingEnter e)))
  ∧ (∀ (FL : FutureList σ α) (fuel : Nat) (fl : σ)
        (waits : List (Except ExtError (List (Nat × Int))))
        (fdOutcome : Option (Except FdError (α × Nat))) (e : UringError),
      uringRun FL fuel fl ⟨[], [], 0, []⟩ waits = some (.error e) →
      run_executor true none none FL fuel fl waits fdOutcome =
        some (.error (.URingExecutor e))) := by
  constructor
  · intro FL fuel fl ws e rest nwaits hpoll hready
    rcases hp : FL.poll_results fl with ⟨fl1, res⟩
    rw [hp] at hpoll hready
    simp only at hpoll
    subst hpoll
    simp [runLoop, hp, hready, RingWakerState.wait_wake_event]
  · intro FL fuel fl waits fdOutcome e h
    simp [run_executor, uringExecutorNew, RingWakerState.new, h]

/-- Closed witness for C8: with a single never-progressing task and a kernel
wait that fails with errno 3, the run loop and run_executor return the
URingEnter error wrapped as the outer URingExecutor error. -/
theorem wait_failure_propagates_to_entry_point_witness :
    (neverReadyList.poll_results ()).2 = none
  ∧ neverReadyList.any_ready (neverReadyList.append (neverReadyList.poll_results ()).1 []) =
      false
  ∧ runLoop neverReadyList 1 () ⟨[], [], 0, []⟩ [.error 3] 0 =
      some (.error (.URingEnter 3))
  ∧ run_executor true none none neverReadyList 1 () [.error 3] none =
      some (.error (.URingExecutor (.URingEnter 3))) := by
  refine ⟨rfl, rfl, ?_, ?_⟩
  · exact wait_failure_propagates_to_entry_point.1 neverReadyList 0 ()
      ⟨[], [], 0, []⟩ 3 [] 0 rfl rfl
  · exact wait_failure_propagates_to_entry_point.2 neverReadyList 1 ()
      [.error 3] none (.URingEnter 3) rfl

end CrosAsync

namespace Qcow

/-- C10.  For a cache with table_size 4, create_table yields the two-element
address vector [0, 4] (length 2, second entry nonzero), and re-inserting that
vector through insert_vec fails with InvalidVectorLength: the source builds
`vec![0, table_size]` where every other part of the module (from_vec paired
with the insert_vec length check) expects a vector of table_size zeros. -/
theorem l2_create_table_wrong_shape :
    (L2Cache.new 4 16).create_table.cluster_addrs = [0, 4]
  ∧ (L2Cache.new 4 16).create_table.cluster_addrs.length = 2
  ∧ (L2Cache.new 4 16).insert_vec 0 ((L2Cache.new 4 16).create_table.cluster_addrs) =
      .error .InvalidVectorLength := by
  refine ⟨rfl, rfl, rfl⟩

end Qcow
